import Mathlib

/-!
# Verification of `filters/builtin/headertoheader.go`

A shallow embedding of the `headerToAddHeader` / `headerToSetHeader` filters.

* Go `string` values are embedded as Lean `String`; every scan the code performs
  (for the byte `%`, for ASCII letters, for header token bytes) is on ASCII
  bytes, so scanning characters instead of UTF-8 bytes gives the same result.
* `[]interface{}` is embedded as `List Value`, and the type assertion
  `x.(string)` as `Value.asString`.
* `http.Header` (`map[string][]string`) is embedded as a function from keys to
  optional value lists; the in-place mutation done by `Request` becomes a
  function from the header collection before to the header collection after.
  A `nil` map reads like the empty map, and `Request` only writes after a
  non-empty read, so the `nil` case is covered by the empty collection.
* `headerUpdateType` is a Go `int`; it is embedded as `Int`, so that mode values
  other than the two declared constants are representable.
-/

set_option autoImplicit false

/-! ## Constants and the data model (source lines 9-29) -/

def ActionUnknown : String := "actionUnknown"
def HeaderToAddHeaderName : String := "headerToAddHeader"
def HeaderToSetHeaderName : String := "headerToSetHeader"

abbrev headerUpdateType := Int

def headerToAddHeader : headerUpdateType := 0
def headerToSetHeader : headerUpdateType := 1

structure headerToHeaderFilter where
  typ : headerUpdateType
  oldHeaderName : String
  newHeaderName : String
  formatString : String
  deriving DecidableEq, Repr

/-- A dynamically typed Go value, as found in an `[]interface{}` argument list. -/
inductive Value where
  | str (s : String)
  | int (n : Int)
  | bool (b : Bool)
  | nil
  | other (tag : Nat)
  deriving DecidableEq, Repr

/-- The type assertion `x.(string)`: the string and `ok = true`, or `ok = false`. -/
def Value.asString : Value → Option String
  | .str s => some s
  | _ => none

/-- What a call of `CreateFilter` can end in besides a filter: the error value
`filters.ErrInvalidFilterParameters`, or a run-time panic from indexing the
argument slice out of range. -/
inductive CreateError where
  | ErrInvalidFilterParameters
  | indexOutOfRange
  deriving DecidableEq, Repr

/-! ## The formatting library: `fmt.Sprintf` on string operands -/

/-- The part of `fmt.Sprintf` that is left open: how a string operand is printed
under a verb other than a plain `%s` / `%v`, and how a directive that carries a
width, a precision or an explicit argument index is processed. -/
structure FmtExt where
  /-- Output for one string operand, given the flag characters seen and the verb. -/
  printArg : List Char → Char → String → List Char
  /-- Output for the whole rest of the format, from a directive with a width,
  a precision or an argument index on: flags seen, rest of the format, the
  operand counter and the operands. -/
  complex : List Char → List Char → Nat → List String → List Char

/-- The flag characters recognised after a percent sign. -/
def isFlag (c : Char) : Bool :=
  c == '#' || c == '0' || c == '+' || c == '-' || c == ' '

/-- Start of a width, a precision or an explicit argument index. -/
def isComplexStart (c : Char) : Bool :=
  c == '[' || c == '*' || c == '.' || c.isDigit

def noVerbString : List Char := "%!(NOVERB)".data

/-- Modelled from the spec: `missingArg` of the Go `fmt` package, which is not
part of the repository; a verb with no operand left prints `%!verb(MISSING)`. -/
def missingArg (verb : Char) : List Char :=
  "%!".data ++ [verb] ++ "(MISSING)".data

/-- Modelled from the spec: `printArg` of the Go `fmt` package on a string
operand, which is not part of the repository. The verb `s`, and the verb `v`
without the sharp flag, write the operand as it is (no width or precision is
present on this path); every other verb is left to `ext`. -/
def printArg (ext : FmtExt) (flags : List Char) (verb : Char) (v : String) : List Char :=
  if verb = 's' then v.data
  else if verb = 'v' ∧ '#' ∉ flags then v.data
  else ext.printArg flags verb v

/-- Modelled from the spec: the check for unused operands at the end of
`doPrintf` of the Go `fmt` package, which is not part of the repository:
`%!(EXTRA string=a, string=b)`. -/
def extraArgs (a : List String) (argNum : Nat) : List Char :=
  if argNum < a.length then
    "%!(EXTRA ".data
      ++ (", ".intercalate ((a.drop argNum).map fun s => "string=" ++ s)).data
      ++ [')']
  else []

/-- Modelled from the spec: `doPrintf` of the Go `fmt` package for string
operands, which is not part of the repository (spec 4.2 step 2: the operand is
substituted at the placeholder, with arbitrary literal text around it).
The second argument is `none` while literal text is copied and `some flags`
inside a directive, after the percent sign. -/
def doPrintf (ext : FmtExt) (a : List String) :
    Option (List Char) → List Char → Nat → List Char
  | none, [], argNum => extraArgs a argNum
  | none, c :: rest, argNum =>
      if c = '%' then doPrintf ext a (some []) rest argNum
      else c :: doPrintf ext a none rest argNum
  | some _, [], argNum => noVerbString ++ extraArgs a argNum
  | some flags, c :: rest, argNum =>
      if isFlag c then doPrintf ext a (some (flags ++ [c])) rest argNum
      else if c.isLower ∧ argNum < a.length then
        printArg ext flags c (a.getD argNum "") ++ doPrintf ext a none rest (argNum + 1)
      else if isComplexStart c then ext.complex flags (c :: rest) argNum a
      else if c = '%' then '%' :: doPrintf ext a none rest argNum
      else if a.length ≤ argNum then missingArg c ++ doPrintf ext a none rest argNum
      else printArg ext flags c (a.getD argNum "") ++ doPrintf ext a none rest (argNum + 1)

/-- Modelled from the spec: `fmt.Sprintf(format, a...)` of the Go standard
library with string operands, which is not part of the repository. -/
def Sprintf (ext : FmtExt) (format : String) (a : List String) : String :=
  String.mk (doPrintf ext a none format.data 0)

/-! ## The header collection: `net/http.Header` -/

/-- Bytes allowed in a header field name (RFC 7230 `tchar`). -/
def validHeaderFieldByte (c : Char) : Bool :=
  c.isAlphanum || c == '!' || c == '#' || c == '$' || c == '%' || c == '&'
    || c == Char.ofNat 39 || c == '*' || c == '+' || c == '-' || c == '.'
    || c == '^' || c == '_' || c == Char.ofNat 96 || c == '|' || c == '~'

/-- The rewriting loop of `canonicalMIMEHeaderKey`: upper case at the start and
after each hyphen, lower case elsewhere. -/
def canonicalLoop : Bool → List Char → List Char
  | _, [] => []
  | upper, c :: rest =>
      let c1 := if upper && c.isLower then c.toUpper
                else if !upper && c.isUpper then c.toLower else c
      c1 :: canonicalLoop (c1 == '-') rest

/-- Modelled from the spec: `textproto.CanonicalMIMEHeaderKey` of the Go
standard library, which is not part of the repository (spec 3: header names
are case-insensitive). A key with a byte that is not allowed in a field name
is returned unchanged. -/
def CanonicalMIMEHeaderKey (s : String) : String :=
  if s.data.all validHeaderFieldByte then String.mk (canonicalLoop true s.data) else s

/-- The header collection `map[string][]string`. -/
abbrev Header := String → Option (List String)

/-- Modelled from the spec: `http.Header.Values`, which is not part of the
repository: the value list stored under the canonical form of the key. -/
def Header.Values (h : Header) (key : String) : List String :=
  (h (CanonicalMIMEHeaderKey key)).getD []

/-- Modelled from the spec: `http.Header.Get`, which is not part of the
repository: the first value under the canonical key, the empty string when
there is none. -/
def Header.Get (h : Header) (key : String) : String :=
  match h (CanonicalMIMEHeaderKey key) with
  | some (v :: _) => v
  | _ => ""

/-- Modelled from the spec: `http.Header.Add`, which is not part of the
repository: appends the value to the list under the canonical key. -/
def Header.Add (h : Header) (key value : String) : Header :=
  fun k => if k = CanonicalMIMEHeaderKey key
    then some ((h (CanonicalMIMEHeaderKey key)).getD [] ++ [value]) else h k

/-- Modelled from the spec: `http.Header.Set`, which is not part of the
repository: replaces the list under the canonical key by the single value. -/
def Header.Set (h : Header) (key value : String) : Header :=
  fun k => if k = CanonicalMIMEHeaderKey key then some [value] else h k

/-! ## The filter (source lines 45-133) -/

def NewHeaderToAddHeader : headerToHeaderFilter :=
  { typ := headerToAddHeader, oldHeaderName := "", newHeaderName := "", formatString := "" }

def NewHeaderToSetHeader : headerToHeaderFilter :=
  { typ := headerToSetHeader, oldHeaderName := "", newHeaderName := "", formatString := "" }

def headerToHeaderFilter.Name (s : headerToHeaderFilter) : String :=
  if s.typ = headerToAddHeader then HeaderToAddHeaderName
  else if s.typ = headerToSetHeader then HeaderToSetHeaderName
  else ActionUnknown

/-- The method `CreateFilter`. The receiver is not named in the source and is
not read; the struct literal that is returned sets the two names and the
format string and leaves `typ` at the zero value of its type. Indexing the
argument list is checked, as it is at run time. -/
def headerToHeaderFilter.CreateFilter (_s : headerToHeaderFilter) (args : List Value) :
    Except CreateError headerToHeaderFilter :=
  if args.length < 2 ∨ args.length > 3 then .error .ErrInvalidFilterParameters
  else
    match args[0]? with
    | none => .error .indexOutOfRange
    | some a0 =>
      match a0.asString with
      | none => .error .ErrInvalidFilterParameters
      | some o =>
        match args[1]? with
        | none => .error .indexOutOfRange
        | some a1 =>
          match a1.asString with
          | none => .error .ErrInvalidFilterParameters
          | some n =>
            if args.length = 3 then
              match args[2]? with
              | none => .error .indexOutOfRange
              | some a2 =>
                match a2.asString with
                | none => .error .ErrInvalidFilterParameters
                | some formatString =>
                  .ok { typ := 0, oldHeaderName := o, newHeaderName := n,
                        formatString := formatString }
            else
              .ok { typ := 0, oldHeaderName := o, newHeaderName := n, formatString := "%s" }

/-- The method `Request`, as a function on the header collection of the request. -/
def headerToHeaderFilter.Request (ext : FmtExt) (f : headerToHeaderFilter) (h : Header) :
    Header :=
  let v := Header.Get h f.oldHeaderName
  if v = "" then h
  else if f.typ = headerToAddHeader then
    Header.Add h f.newHeaderName (Sprintf ext f.formatString [v])
  else if f.typ = headerToSetHeader then
    Header.Set h f.newHeaderName (Sprintf ext f.formatString [v])
  else h

/-- The method `Response`: empty body. -/
def headerToHeaderFilter.Response (_f : headerToHeaderFilter) (h : Header) : Header := h

/-- The method `String`. -/
def headerToHeaderFilter.String (ext : FmtExt) (f : headerToHeaderFilter) : String :=
  if f.typ = headerToAddHeader then
    Sprintf ext "%s(%s, %s, %s)"
      [HeaderToAddHeaderName, f.oldHeaderName, f.newHeaderName, f.formatString]
  else if f.typ = headerToSetHeader then
    Sprintf ext "%s(%s, %s, %s)"
      [HeaderToSetHeaderName, f.oldHeaderName, f.newHeaderName, f.formatString]
  else ActionUnknown

/-- A trivial instance of the open part of the formatting library. -/
def FmtExt.blank : FmtExt := { printArg := fun _ _ _ => [], complex := fun _ _ _ _ => [] }

/-- The request of scenario 2: `X-Bar-Header: 123` and `X-Foo-Header: old`. -/
def scenarioHeaders : Header := fun k =>
  if k = "X-Bar-Header" then some ["123"]
  else if k = "X-Foo-Header" then some ["old"]
  else none

/-- A request whose source value has percent signs: `X-Bar-Header: 100%d%`
and `X-Foo-Header: old`. -/
def percentHeaders : Header := fun k =>
  if k = "X-Bar-Header" then some ["100%d%"]
  else if k = "X-Foo-Header" then some ["old"]
  else none

/-- The request of scenario 3: `X-Access-Token: abc`. -/
def tokenHeaders : Header := fun k =>
  if k = "X-Access-Token" then some ["abc"] else none

/-- A request whose source header carries two values: `X-Bar-Header: 123`,
`X-Bar-Header: 456` and `X-Foo-Header: old`. -/
def multiHeaders : Header := fun k =>
  if k = "X-Bar-Header" then some ["123", "456"]
  else if k = "X-Foo-Header" then some ["old"]
  else none

/-- A request whose first source value is empty and whose second is not:
`X-Bar-Header:` (empty), `X-Bar-Header: 456`. -/
def emptyFirstHeaders : Header := fun k =>
  if k = "X-Bar-Header" then some ["", "456"] else none

/-! ## Lemmas on the formatting library -/

/-- Literal text without a percent sign is copied to the output unchanged. -/
theorem doPrintf_literal (ext : FmtExt) (a : List String) (p rest : List Char) (n : Nat)
    (hp : '%' ∉ p) :
    doPrintf ext a none (p ++ rest) n = p ++ doPrintf ext a none rest n := by
  induction p with
  | nil => rfl
  | cons c p ih =>
    have hc : c ≠ '%' := fun e => hp (by simp [e])
    have hp1 : '%' ∉ p := fun e => hp (by simp [e])
    simp [doPrintf, hc, ih hp1]

/-- The directive `%s` with an operand left writes that operand. -/
theorem doPrintf_percent_s (ext : FmtExt) (a : List String) (rest : List Char) (n : Nat)
    (hn : n < a.length) :
    doPrintf ext a none ('%' :: 's' :: rest) n
      = (a.getD n "").data ++ doPrintf ext a none rest (n + 1) := by
  have h1 : isFlag 's' = false := by decide
  have h2 : Char.isLower 's' = true := by decide
  simp [doPrintf, h1, h2, hn, printArg]

theorem Sprintf_literal_s_literal (ext : FmtExt) (p q v : String)
    (hp : '%' ∉ p.data) (hq : '%' ∉ q.data) :
    Sprintf ext (p ++ "%s" ++ q) [v] = p ++ v ++ q := by
  have hs : ("%s" : String).data = ['%', 's'] := rfl
  have hq1 : doPrintf ext [v] none q.data 1 = q.data := by
    have := doPrintf_literal ext [v] q.data [] 1 hq
    simpa [doPrintf, extraArgs] using this
  have hmid : doPrintf ext [v] none ('%' :: 's' :: q.data) 0 = v.data ++ q.data := by
    rw [doPrintf_percent_s ext [v] q.data 0 (by simp), hq1]
    rfl
  apply String.ext
  simp only [Sprintf, String.data_append, hs, List.append_assoc]
  rw [doPrintf_literal ext [v] p.data _ 0 hp]
  simpa using hmid

theorem Sprintf_identity (ext : FmtExt) (v : String) : Sprintf ext "%s" [v] = v := by
  have h := Sprintf_literal_s_literal ext "" "" v (by simp) (by simp)
  simpa using h

/-! ## Lemmas on the header collection -/

theorem Values_Add (h : Header) (key value : String) :
    Header.Values (Header.Add h key value) key = Header.Values h key ++ [value] := by
  simp [Header.Values, Header.Add]

theorem Values_Set (h : Header) (key value : String) :
    Header.Values (Header.Set h key value) key = [value] := by
  simp [Header.Values, Header.Set]

theorem Request_eq_Add (ext : FmtExt) (f : headerToHeaderFilter) (h : Header)
    (hmode : f.typ = headerToAddHeader) (hne : Header.Get h f.oldHeaderName ≠ "") :
    f.Request ext h
      = Header.Add h f.newHeaderName
          (Sprintf ext f.formatString [Header.Get h f.oldHeaderName]) := by
  simp [headerToHeaderFilter.Request, hmode, hne]

theorem Request_eq_Set (ext : FmtExt) (f : headerToHeaderFilter) (h : Header)
    (hmode : f.typ = headerToSetHeader) (hne : Header.Get h f.oldHeaderName ≠ "") :
    f.Request ext h
      = Header.Set h f.newHeaderName
          (Sprintf ext f.formatString [Header.Get h f.oldHeaderName]) := by
  have hna : headerToSetHeader ≠ headerToAddHeader := by decide
  simp [headerToHeaderFilter.Request, hmode, hne, hna]

theorem Values_Request_add (ext : FmtExt) (f : headerToHeaderFilter) (h : Header)
    (hmode : f.typ = headerToAddHeader) (hne : Header.Get h f.oldHeaderName ≠ "") :
    Header.Values (f.Request ext h) f.newHeaderName
      = Header.Values h f.newHeaderName
          ++ [Sprintf ext f.formatString [Header.Get h f.oldHeaderName]] := by
  rw [Request_eq_Add ext f h hmode hne, Values_Add]

theorem Values_Request_set (ext : FmtExt) (f : headerToHeaderFilter) (h : Header)
    (hmode : f.typ = headerToSetHeader) (hne : Header.Get h f.oldHeaderName ≠ "") :
    Header.Values (f.Request ext h) f.newHeaderName
      = [Sprintf ext f.formatString [Header.Get h f.oldHeaderName]] := by
  rw [Request_eq_Set ext f h hmode hne, Values_Set]

/-! ## Construction: `CreateFilter` -/

/-- C1: for every argument list whose length is less than 2 or greater than 3,
whatever its elements are, `CreateFilter` returns the error
`ErrInvalidFilterParameters` and no filter, and it does not end in an
out-of-range index. -/
theorem CreateFilter_rejects_wrong_length (s : headerToHeaderFilter) (args : List Value)
    (hlen : args.length < 2 ∨ args.length > 3) :
    s.CreateFilter args = .error .ErrInvalidFilterParameters
      ∧ s.CreateFilter args ≠ .error .indexOutOfRange
      ∧ ∀ f, s.CreateFilter args ≠ .ok f := by
  have h : s.CreateFilter args = .error .ErrInvalidFilterParameters := by
    simp only [headerToHeaderFilter.CreateFilter, if_pos hlen]
  rw [h]
  exact ⟨rfl, by simp, by simp⟩

theorem CreateFilter_rejects_wrong_length_witness :
    ((([] : List Value).length < 2 ∨ ([] : List Value).length > 3)
      ∧ ((List.replicate 4 (Value.str "a")).length < 2
          ∨ (List.replicate 4 (Value.str "a")).length > 3))
    ∧ NewHeaderToAddHeader.CreateFilter [] = .error .ErrInvalidFilterParameters
    ∧ NewHeaderToSetHeader.CreateFilter (List.replicate 4 (Value.str "a"))
        = .error .ErrInvalidFilterParameters :=
  ⟨⟨by decide, by decide⟩,
   (CreateFilter_rejects_wrong_length NewHeaderToAddHeader [] (by decide)).1,
   (CreateFilter_rejects_wrong_length NewHeaderToSetHeader
      (List.replicate 4 (Value.str "a")) (by decide)).1⟩

/-- C2: for every argument list of length 2 or 3, `CreateFilter` returns the
error `ErrInvalidFilterParameters` exactly when some element of the list is
not a string; a list of 2 or 3 strings yields a filter, and the list
`["a", 2]` is rejected. -/
theorem CreateFilter_error_iff_not_string (s : headerToHeaderFilter) (args : List Value)
    (hlen : args.length = 2 ∨ args.length = 3) :
    (s.CreateFilter args = .error .ErrInvalidFilterParameters
        ↔ ∃ x ∈ args, x.asString = none)
      ∧ ((∀ x ∈ args, ∃ t, x = Value.str t) → ∃ f, s.CreateFilter args = .ok f)
      ∧ s.CreateFilter [Value.str "a", Value.int 2] = .error .ErrInvalidFilterParameters := by
  refine ⟨?_, ?_, by simp [headerToHeaderFilter.CreateFilter, Value.asString]⟩
  · rcases hlen with hlen | hlen
    · obtain ⟨x, y, rfl⟩ := List.length_eq_two.mp hlen
      cases x <;> cases y <;> simp [headerToHeaderFilter.CreateFilter, Value.asString]
    · obtain ⟨x, y, z, rfl⟩ := List.length_eq_three.mp hlen
      cases x <;> cases y <;> cases z <;>
        simp [headerToHeaderFilter.CreateFilter, Value.asString]
  · intro hall
    rcases hlen with hlen | hlen
    · obtain ⟨x, y, rfl⟩ := List.length_eq_two.mp hlen
      obtain ⟨a, rfl⟩ := hall x (by simp)
      obtain ⟨b, rfl⟩ := hall y (by simp)
      simp [headerToHeaderFilter.CreateFilter, Value.asString]
    · obtain ⟨x, y, z, rfl⟩ := List.length_eq_three.mp hlen
      obtain ⟨a, rfl⟩ := hall x (by simp)
      obtain ⟨b, rfl⟩ := hall y (by simp)
      obtain ⟨c, rfl⟩ := hall z (by simp)
      simp [headerToHeaderFilter.CreateFilter, Value.asString]

theorem CreateFilter_error_iff_not_string_witness :
    ([Value.str "a", Value.bool true, Value.str "c"].length = 2
        ∨ [Value.str "a", Value.bool true, Value.str "c"].length = 3)
      ∧ (NewHeaderToAddHeader.CreateFilter [Value.str "a", Value.bool true, Value.str "c"]
            = .error .ErrInvalidFilterParameters
          ↔ ∃ x ∈ [Value.str "a", Value.bool true, Value.str "c"], x.asString = none) :=
  ⟨by decide,
   (CreateFilter_error_iff_not_string NewHeaderToAddHeader
      [Value.str "a", Value.bool true, Value.str "c"] (by decide)).1⟩

/-- C3: for all strings a, b, c, `CreateFilter [a, b, c]` yields a filter with
source header name a, destination header name b and format string c, and
`CreateFilter [a, b]` yields a filter with source a, destination b and the
format string `%s`. -/
theorem CreateFilter_fields (s : headerToHeaderFilter) (a b c : String) :
    (∃ f, s.CreateFilter [Value.str a, Value.str b, Value.str c] = .ok f
        ∧ f.oldHeaderName = a ∧ f.newHeaderName = b ∧ f.formatString = c)
      ∧ (∃ f, s.CreateFilter [Value.str a, Value.str b] = .ok f
        ∧ f.oldHeaderName = a ∧ f.newHeaderName = b ∧ f.formatString = "%s") := by
  constructor
  · exact ⟨{ typ := 0, oldHeaderName := a, newHeaderName := b, formatString := c },
      by simp [headerToHeaderFilter.CreateFilter, Value.asString], rfl, rfl, rfl⟩
  · exact ⟨{ typ := 0, oldHeaderName := a, newHeaderName := b, formatString := "%s" },
      by simp [headerToHeaderFilter.CreateFilter, Value.asString], rfl, rfl, rfl⟩

/-- C4: the filter that `CreateFilter` returns on the factory of
`NewHeaderToSetHeader` has the write mode `headerToAddHeader`, not the mode of
the factory: the returned struct literal does not set `typ`. -/
theorem CreateFilter_on_set_factory_yields_add_mode (a b : String) :
    NewHeaderToSetHeader.typ = headerToSetHeader
      ∧ NewHeaderToSetHeader.CreateFilter [Value.str a, Value.str b]
          = .ok { typ := headerToAddHeader, oldHeaderName := a, newHeaderName := b,
                  formatString := "%s" }
      ∧ headerToAddHeader ≠ headerToSetHeader := by
  refine ⟨rfl, ?_, by decide⟩
  simp [headerToHeaderFilter.CreateFilter, Value.asString, headerToAddHeader]

/-- C5: on the request of scenario 2 (`X-Bar-Header: 123`, `X-Foo-Header: old`)
the filter made by `NewHeaderToSetHeader().CreateFilter(["X-Bar-Header",
"X-Foo-Header"])` leaves the two values `old`, `123` under `X-Foo-Header`:
the old value is kept. -/
theorem Request_of_set_factory_keeps_old_value (ext : FmtExt) :
    ∃ f, NewHeaderToSetHeader.CreateFilter
            [Value.str "X-Bar-Header", Value.str "X-Foo-Header"] = .ok f
      ∧ Header.Values (f.Request ext scenarioHeaders) "X-Foo-Header" = ["old", "123"] := by
  refine ⟨{ typ := 0, oldHeaderName := "X-Bar-Header", newHeaderName := "X-Foo-Header",
            formatString := "%s" },
    by simp [headerToHeaderFilter.CreateFilter, Value.asString], ?_⟩
  have h1 : Header.Get scenarioHeaders "X-Bar-Header" = "123" := by decide
  rw [Request_eq_Add ext _ _ rfl (by simp only [h1]; decide), Values_Add]
  simp only [h1, Sprintf_identity]
  decide

/-! ## The request transformation: `Request` -/

/-- C6: for every filter (any mode, names and format string) and every header
collection in which the source header is absent, has no value, or has the
empty string as its first value, `Request` returns the header collection
unchanged. -/
theorem Request_noop_without_source (ext : FmtExt) (f : headerToHeaderFilter) (h : Header)
    (hsrc : h (CanonicalMIMEHeaderKey f.oldHeaderName) = none
      ∨ h (CanonicalMIMEHeaderKey f.oldHeaderName) = some []
      ∨ ∃ rest, h (CanonicalMIMEHeaderKey f.oldHeaderName) = some ("" :: rest)) :
    f.Request ext h = h := by
  have hget : Header.Get h f.oldHeaderName = "" := by
    rcases hsrc with e | e | ⟨rest, e⟩ <;> simp [Header.Get, e]
  simp [headerToHeaderFilter.Request, hget]

theorem Request_noop_without_source_witness :
    (scenarioHeaders (CanonicalMIMEHeaderKey "X-Other") = none
      ∨ scenarioHeaders (CanonicalMIMEHeaderKey "X-Other") = some []
      ∨ ∃ rest, scenarioHeaders (CanonicalMIMEHeaderKey "X-Other") = some ("" :: rest))
    ∧ headerToHeaderFilter.Request FmtExt.blank
        { typ := headerToSetHeader, oldHeaderName := "X-Other",
          newHeaderName := "X-Foo-Header", formatString := "%s" } scenarioHeaders
      = scenarioHeaders :=
  ⟨Or.inl (by decide),
   Request_noop_without_source FmtExt.blank
     { typ := headerToSetHeader, oldHeaderName := "X-Other",
       newHeaderName := "X-Foo-Header", formatString := "%s" } scenarioHeaders
     (Or.inl (by decide))⟩

/-- C7: for every filter in mode `headerToAddHeader` and every header collection
whose source header value v is not empty, after `Request` the value list of
the destination header is the list it was before, in the same order, followed
by the one value `Sprintf formatString v`. -/
theorem Request_add_appends (ext : FmtExt) (f : headerToHeaderFilter) (h : Header) (v : String)
    (hmode : f.typ = headerToAddHeader)
    (hv : Header.Get h f.oldHeaderName = v) (hne : v ≠ "") :
    Header.Values (f.Request ext h) f.newHeaderName
      = Header.Values h f.newHeaderName ++ [Sprintf ext f.formatString [v]] := by
  subst hv
  exact Values_Request_add ext f h hmode hne

theorem Request_add_appends_witness :
    ((headerToHeaderFilter.mk headerToAddHeader "x-bar-header" "x-foo-header" "<%s>").typ
        = headerToAddHeader
      ∧ Header.Get scenarioHeaders "x-bar-header" = "123" ∧ "123" ≠ "")
    ∧ Header.Values (headerToHeaderFilter.Request FmtExt.blank
          (headerToHeaderFilter.mk headerToAddHeader "x-bar-header" "x-foo-header" "<%s>")
          scenarioHeaders) "x-foo-header"
        = Header.Values scenarioHeaders "x-foo-header"
            ++ [Sprintf FmtExt.blank "<%s>" ["123"]] :=
  ⟨⟨rfl, by decide, by decide⟩,
   Request_add_appends FmtExt.blank
     (headerToHeaderFilter.mk headerToAddHeader "x-bar-header" "x-foo-header" "<%s>")
     scenarioHeaders "123" rfl (by decide) (by decide)⟩

/-- C8: for every filter in mode `headerToSetHeader` and every header collection
whose source header value v is not empty, after `Request` the value list of
the destination header is the one-element list `[Sprintf formatString v]`,
whatever it was before. -/
theorem Request_set_replaces (ext : FmtExt) (f : headerToHeaderFilter) (h : Header) (v : String)
    (hmode : f.typ = headerToSetHeader)
    (hv : Header.Get h f.oldHeaderName = v) (hne : v ≠ "") :
    Header.Values (f.Request ext h) f.newHeaderName = [Sprintf ext f.formatString [v]] := by
  subst hv
  exact Values_Request_set ext f h hmode hne

theorem Request_set_replaces_witness :
    ((headerToHeaderFilter.mk headerToSetHeader "X-Bar-Header" "X-Foo-Header" "<%s>").typ
        = headerToSetHeader
      ∧ Header.Get scenarioHeaders "X-Bar-Header" = "123" ∧ "123" ≠ "")
    ∧ Header.Values (headerToHeaderFilter.Request FmtExt.blank
          (headerToHeaderFilter.mk headerToSetHeader "X-Bar-Header" "X-Foo-Header" "<%s>")
          scenarioHeaders) "X-Foo-Header"
        = [Sprintf FmtExt.blank "<%s>" ["123"]] :=
  ⟨⟨rfl, by decide, by decide⟩,
   Request_set_replaces FmtExt.blank
     (headerToHeaderFilter.mk headerToSetHeader "X-Bar-Header" "X-Foo-Header" "<%s>")
     scenarioHeaders "123" rfl (by decide) (by decide)⟩

/-- C9: for all strings a and b, `CreateFilter [a, b]` and
`CreateFilter [a, b, "%s"]` return the same filter, and on every header
collection whose source value v is not empty (whatever characters v has,
percent signs included) `Request` of that filter writes exactly v under
the destination: v is appended to the destination values, and it would be
the only destination value if the filter had mode `headerToSetHeader`. -/
theorem CreateFilter_default_is_identity_template (ext : FmtExt) (s : headerToHeaderFilter)
    (a b : String) :
    s.CreateFilter [Value.str a, Value.str b]
        = s.CreateFilter [Value.str a, Value.str b, Value.str "%s"]
      ∧ ∃ f, s.CreateFilter [Value.str a, Value.str b] = .ok f
          ∧ (∀ v : String, Sprintf ext f.formatString [v] = v)
          ∧ (∀ (h : Header) (v : String), Header.Get h a = v → v ≠ "" →
              Header.Values (f.Request ext h) b = Header.Values h b ++ [v]
              ∧ Header.Values (headerToHeaderFilter.Request ext
                    { f with typ := headerToSetHeader } h) b = [v]) := by
  refine ⟨by simp [headerToHeaderFilter.CreateFilter, Value.asString],
    { typ := 0, oldHeaderName := a, newHeaderName := b, formatString := "%s" },
    by simp [headerToHeaderFilter.CreateFilter, Value.asString],
    fun v => Sprintf_identity ext v, ?_⟩
  intro h v hv hne
  subst hv
  constructor
  · have := Values_Request_add ext
      { typ := 0, oldHeaderName := a, newHeaderName := b, formatString := "%s" } h rfl hne
    simpa [Sprintf_identity] using this
  · have := Values_Request_set ext
      { typ := headerToSetHeader, oldHeaderName := a, newHeaderName := b,
        formatString := "%s" } h rfl hne
    simpa [Sprintf_identity] using this

theorem CreateFilter_default_is_identity_template_witness :
    ∃ f, NewHeaderToAddHeader.CreateFilter
            [Value.str "X-Bar-Header", Value.str "X-Foo-Header"] = .ok f
      ∧ Header.Values (f.Request FmtExt.blank percentHeaders) "X-Foo-Header"
          = Header.Values percentHeaders "X-Foo-Header" ++ ["100%d%"] := by
  obtain ⟨_, f, hf, _, hreq⟩ := CreateFilter_default_is_identity_template FmtExt.blank
    NewHeaderToAddHeader "X-Bar-Header" "X-Foo-Header"
  exact ⟨f, hf, (hreq percentHeaders "100%d%" (by decide) (by decide)).1⟩

/-- C10: for all strings p and q without a percent sign and every non-empty
source value v, a filter with the format string `p ++ "%s" ++ q` writes the
value `p ++ v ++ q` under the destination header: appended in mode
`headerToAddHeader`, as the only value in mode `headerToSetHeader`. -/
theorem Request_template_surround (ext : FmtExt) (f : headerToHeaderFilter) (h : Header)
    (p q v : String) (hp : '%' ∉ p.data) (hq : '%' ∉ q.data)
    (hfmt : f.formatString = p ++ "%s" ++ q)
    (hv : Header.Get h f.oldHeaderName = v) (hne : v ≠ "") :
    Sprintf ext f.formatString [v] = p ++ v ++ q
      ∧ (f.typ = headerToAddHeader →
          Header.Values (f.Request ext h) f.newHeaderName
            = Header.Values h f.newHeaderName ++ [p ++ v ++ q])
      ∧ (f.typ = headerToSetHeader →
          Header.Values (f.Request ext h) f.newHeaderName = [p ++ v ++ q]) := by
  have hs : Sprintf ext f.formatString [v] = p ++ v ++ q := by
    rw [hfmt]; exact Sprintf_literal_s_literal ext p q v hp hq
  subst hv
  refine ⟨hs, fun hmode => ?_, fun hmode => ?_⟩
  · rw [Values_Request_add ext f h hmode hne, hs]
  · rw [Values_Request_set ext f h hmode hne, hs]

theorem Request_template_surround_witness :
    ('%' ∉ "Bearer ".data ∧ '%' ∉ "".data
      ∧ (headerToHeaderFilter.mk headerToAddHeader "X-Access-Token" "Authorization"
            "Bearer %s").formatString = "Bearer " ++ "%s" ++ ""
      ∧ Header.Get tokenHeaders "X-Access-Token" = "abc" ∧ "abc" ≠ "")
    ∧ Header.Values (headerToHeaderFilter.Request FmtExt.blank
          (headerToHeaderFilter.mk headerToAddHeader "X-Access-Token" "Authorization"
            "Bearer %s") tokenHeaders) "Authorization"
        = Header.Values tokenHeaders "Authorization" ++ ["Bearer " ++ "abc" ++ ""] :=
  ⟨⟨by decide, by decide, by decide, by decide, by decide⟩,
   (Request_template_surround FmtExt.blank
      (headerToHeaderFilter.mk headerToAddHeader "X-Access-Token" "Authorization" "Bearer %s")
      tokenHeaders "Bearer " "" "abc" (by decide) (by decide) (by decide) (by decide)
      (by decide)).2.1 rfl⟩

/-! ## Naming and diagnostics: `Name` and `String` -/

/-- C11: `Name` returns `headerToAddHeader` for every filter in mode
`headerToAddHeader`, `headerToSetHeader` for every filter in mode
`headerToSetHeader`, whatever the other fields are, and `actionUnknown` for
every other mode value. -/
theorem Name_by_mode (f : headerToHeaderFilter) :
    (f.typ = headerToAddHeader → f.Name = "headerToAddHeader")
      ∧ (f.typ = headerToSetHeader → f.Name = "headerToSetHeader")
      ∧ (f.typ ≠ headerToAddHeader → f.typ ≠ headerToSetHeader →
          f.Name = "actionUnknown") := by
  refine ⟨fun h => ?_, fun h => ?_, fun h1 h2 => ?_⟩
  · simp [headerToHeaderFilter.Name, h, HeaderToAddHeaderName]
  · have hne : headerToSetHeader ≠ headerToAddHeader := by decide
    simp [headerToHeaderFilter.Name, h, hne, HeaderToSetHeaderName]
  · simp [headerToHeaderFilter.Name, h1, h2, ActionUnknown]

theorem Name_by_mode_witness :
    ((headerToHeaderFilter.mk 7 "a" "b" "c").typ ≠ headerToAddHeader
      ∧ (headerToHeaderFilter.mk 7 "a" "b" "c").typ ≠ headerToSetHeader)
    ∧ (headerToHeaderFilter.mk 7 "a" "b" "c").Name = "actionUnknown"
    ∧ (headerToHeaderFilter.mk headerToAddHeader "a" "b" "c").Name = "headerToAddHeader"
    ∧ (headerToHeaderFilter.mk headerToSetHeader "a" "b" "c").Name = "headerToSetHeader" :=
  ⟨⟨by decide, by decide⟩,
   (Name_by_mode (headerToHeaderFilter.mk 7 "a" "b" "c")).2.2 (by decide) (by decide),
   (Name_by_mode (headerToHeaderFilter.mk headerToAddHeader "a" "b" "c")).1 rfl,
   (Name_by_mode (headerToHeaderFilter.mk headerToSetHeader "a" "b" "c")).2.1 rfl⟩

/-- A character other than the percent sign is copied to the output. -/
theorem doPrintf_char (ext : FmtExt) (a : List String) (c : Char) (rest : List Char) (n : Nat)
    (hc : c ≠ '%') :
    doPrintf ext a none (c :: rest) n = c :: doPrintf ext a none rest n := by
  simp [doPrintf, hc]

/-- The format of `String` applied to four operands. -/
theorem Sprintf_describe (ext : FmtExt) (n s d t : String) :
    Sprintf ext "%s(%s, %s, %s)" [n, s, d, t]
      = n ++ "(" ++ s ++ ", " ++ d ++ ", " ++ t ++ ")" := by
  have hf : ("%s(%s, %s, %s)" : String).data
      = ['%', 's', '(', '%', 's', ',', ' ', '%', 's', ',', ' ', '%', 's', ')'] := rfl
  have h1 : ("(" : String).data = ['('] := rfl
  have h2 : (", " : String).data = [',', ' '] := rfl
  have h3 : (")" : String).data = [')'] := rfl
  apply String.ext
  simp only [Sprintf, hf]
  rw [doPrintf_percent_s ext _ _ 0 (by simp),
    doPrintf_char ext _ '(' _ _ (by decide),
    doPrintf_percent_s ext _ _ 1 (by simp),
    doPrintf_char ext _ ',' _ _ (by decide), doPrintf_char ext _ ' ' _ _ (by decide),
    doPrintf_percent_s ext _ _ 2 (by simp),
    doPrintf_char ext _ ',' _ _ (by decide), doPrintf_char ext _ ' ' _ _ (by decide),
    doPrintf_percent_s ext _ _ 3 (by simp),
    doPrintf_char ext _ ')' _ _ (by decide)]
  simp [doPrintf, extraArgs, h1, h2, h3]

/-- C12: for every filter in mode `headerToAddHeader` or `headerToSetHeader`
with source name s, destination name d and format string t, `String` is
`Name ++ "(" ++ s ++ ", " ++ d ++ ", " ++ t ++ ")"`; the format string t is
written as it is, and the result depends on the four fields only. -/
theorem String_eq (ext : FmtExt) (f : headerToHeaderFilter)
    (hmode : f.typ = headerToAddHeader ∨ f.typ = headerToSetHeader) :
    f.String ext
      = f.Name ++ "(" ++ f.oldHeaderName ++ ", " ++ f.newHeaderName ++ ", "
          ++ f.formatString ++ ")" := by
  have hne : headerToSetHeader ≠ headerToAddHeader := by decide
  rcases hmode with h | h
  · simp only [headerToHeaderFilter.String, headerToHeaderFilter.Name, h, if_true,
      Sprintf_describe]
  · simp only [headerToHeaderFilter.String, headerToHeaderFilter.Name, h, if_neg hne, if_true,
      Sprintf_describe]

theorem String_eq_witness :
    ((headerToHeaderFilter.mk headerToSetHeader "X-Bar-Header" "X-Foo-Header" "<%d>").typ
        = headerToAddHeader
      ∨ (headerToHeaderFilter.mk headerToSetHeader "X-Bar-Header" "X-Foo-Header" "<%d>").typ
        = headerToSetHeader)
    ∧ headerToHeaderFilter.String FmtExt.blank
        (headerToHeaderFilter.mk headerToSetHeader "X-Bar-Header" "X-Foo-Header" "<%d>")
      = (headerToHeaderFilter.mk headerToSetHeader "X-Bar-Header" "X-Foo-Header" "<%d>").Name
          ++ "(" ++ "X-Bar-Header" ++ ", " ++ "X-Foo-Header" ++ ", " ++ "<%d>" ++ ")" :=
  ⟨Or.inr rfl,
   String_eq FmtExt.blank
     (headerToHeaderFilter.mk headerToSetHeader "X-Bar-Header" "X-Foo-Header" "<%d>")
     (Or.inr rfl)⟩

/-! ## Header names of a constructed filter -/

/-- A filter returned by `CreateFilter` carries the first two arguments as its
header names. -/
theorem CreateFilter_ok_names (s : headerToHeaderFilter) (args : List Value)
    (f : headerToHeaderFilter) (hok : s.CreateFilter args = .ok f) :
    args[0]? = some (Value.str f.oldHeaderName)
      ∧ args[1]? = some (Value.str f.newHeaderName) := by
  match args, hok with
  | [], hok => simp [headerToHeaderFilter.CreateFilter] at hok
  | [_], hok => simp [headerToHeaderFilter.CreateFilter] at hok
  | [x, y], hok =>
    cases x <;> cases y <;>
      simp [headerToHeaderFilter.CreateFilter, Value.asString] at hok
    subst hok
    simp
  | [x, y, z], hok =>
    cases x <;> cases y <;> cases z <;>
      simp [headerToHeaderFilter.CreateFilter, Value.asString] at hok
    subst hok
    simp
  | _ :: _ :: _ :: _ :: _, hok => simp [headerToHeaderFilter.CreateFilter] at hok

/-- C13 fails as stated: `CreateFilter ["", ""]` succeeds, and both header
names of the filter it returns are empty. -/
theorem CreateFilter_accepts_empty_names :
    ¬ (∀ f, NewHeaderToAddHeader.CreateFilter [Value.str "", Value.str ""] = .ok f →
        f.oldHeaderName ≠ "" ∧ f.newHeaderName ≠ "") := by
  intro h
  have hok : NewHeaderToAddHeader.CreateFilter [Value.str "", Value.str ""]
      = .ok { typ := 0, oldHeaderName := "", newHeaderName := "", formatString := "%s" } := by
    simp [headerToHeaderFilter.CreateFilter, Value.asString]
  exact (h _ hok).1 rfl

/-- C13, amended: for every argument list on which `CreateFilter` succeeds, the
source and destination header names of the filter are the strings given as
the first and the second argument; so each name is non-empty exactly when
that argument is not the empty string. -/
theorem CreateFilter_names_are_arguments (s : headerToHeaderFilter) (args : List Value)
    (f : headerToHeaderFilter) (hok : s.CreateFilter args = .ok f) :
    args[0]? = some (Value.str f.oldHeaderName)
      ∧ args[1]? = some (Value.str f.newHeaderName)
      ∧ (f.oldHeaderName ≠ "" ↔ args[0]? ≠ some (Value.str ""))
      ∧ (f.newHeaderName ≠ "" ↔ args[1]? ≠ some (Value.str "")) := by
  obtain ⟨h0, h1⟩ := CreateFilter_ok_names s args f hok
  refine ⟨h0, h1, ?_, ?_⟩
  · rw [h0]; simp
  · rw [h1]; simp

theorem CreateFilter_names_are_arguments_witness :
    NewHeaderToSetHeader.CreateFilter [Value.str "X-Bar-Header", Value.str ""]
        = .ok (headerToHeaderFilter.mk 0 "X-Bar-Header" "" "%s")
      ∧ [Value.str "X-Bar-Header", Value.str ""][0]? = some (Value.str "X-Bar-Header")
      ∧ [Value.str "X-Bar-Header", Value.str ""][1]? = some (Value.str "") :=
  ⟨by simp [headerToHeaderFilter.CreateFilter, Value.asString],
   (CreateFilter_names_are_arguments NewHeaderToSetHeader
      [Value.str "X-Bar-Header", Value.str ""]
      (headerToHeaderFilter.mk 0 "X-Bar-Header" "" "%s")
      (by simp [headerToHeaderFilter.CreateFilter, Value.asString])).1,
   (CreateFilter_names_are_arguments NewHeaderToSetHeader
      [Value.str "X-Bar-Header", Value.str ""]
      (headerToHeaderFilter.mk 0 "X-Bar-Header" "" "%s")
      (by simp [headerToHeaderFilter.CreateFilter, Value.asString])).2.1⟩

/-! ## Frame, idempotence and the first source value -/

/-- `Request` leaves every key other than the canonical destination key as it was. -/
theorem Request_other_key (ext : FmtExt) (f : headerToHeaderFilter) (h : Header) (k : String)
    (hk : k ≠ CanonicalMIMEHeaderKey f.newHeaderName) :
    f.Request ext h k = h k := by
  by_cases hv : Header.Get h f.oldHeaderName = ""
  · simp [headerToHeaderFilter.Request, hv]
  · by_cases ha : f.typ = headerToAddHeader
    · rw [Request_eq_Add ext f h ha hv]
      simp [Header.Add, hk]
    · by_cases hs : f.typ = headerToSetHeader
      · rw [Request_eq_Set ext f h hs hv]
        simp [Header.Set, hk]
      · simp [headerToHeaderFilter.Request, hv, ha, hs]

/-- `Header.Get` reads only the entry under the canonical key. -/
theorem Get_congr (h1 h2 : Header) (key : String)
    (he : h1 (CanonicalMIMEHeaderKey key) = h2 (CanonicalMIMEHeaderKey key)) :
    Header.Get h1 key = Header.Get h2 key := by
  simp [Header.Get, he]

/-- C14: for every filter and every header collection, after `Request` every
key other than the canonical destination name has the value list it had
before; so the source header is unchanged when its canonical name is not the
canonical destination name. -/
theorem Request_frame (ext : FmtExt) (f : headerToHeaderFilter) (h : Header) :
    (∀ k, k ≠ CanonicalMIMEHeaderKey f.newHeaderName → f.Request ext h k = h k)
      ∧ (CanonicalMIMEHeaderKey f.oldHeaderName ≠ CanonicalMIMEHeaderKey f.newHeaderName →
          Header.Values (f.Request ext h) f.oldHeaderName = Header.Values h f.oldHeaderName
          ∧ Header.Get (f.Request ext h) f.oldHeaderName = Header.Get h f.oldHeaderName) := by
  refine ⟨fun k hk => Request_other_key ext f h k hk, fun hne => ?_⟩
  have he := Request_other_key ext f h _ hne
  exact ⟨by simp [Header.Values, he], Get_congr _ _ _ he⟩

theorem Request_frame_witness :
    ("X-Bar-Header" ≠ CanonicalMIMEHeaderKey "x-foo-header")
    ∧ headerToHeaderFilter.Request FmtExt.blank
        (headerToHeaderFilter.mk headerToSetHeader "x-bar-header" "x-foo-header" "%s")
        scenarioHeaders "X-Bar-Header"
      = scenarioHeaders "X-Bar-Header" :=
  ⟨by decide,
   (Request_frame FmtExt.blank
      (headerToHeaderFilter.mk headerToSetHeader "x-bar-header" "x-foo-header" "%s")
      scenarioHeaders).1 "X-Bar-Header" (by decide)⟩

/-- Writing the same single value twice is the same as writing it once. -/
theorem Set_Set (h : Header) (key value : String) :
    Header.Set (Header.Set h key value) key value = Header.Set h key value := by
  funext k
  simp only [Header.Set]
  split <;> rfl

/-- C15: for every filter in mode `headerToSetHeader` whose canonical source
name is not its canonical destination name, and every header collection,
`Request` applied twice gives the same header collection as `Request`
applied once. -/
theorem Request_set_idempotent (ext : FmtExt) (f : headerToHeaderFilter) (h : Header)
    (hmode : f.typ = headerToSetHeader)
    (hne : CanonicalMIMEHeaderKey f.oldHeaderName ≠ CanonicalMIMEHeaderKey f.newHeaderName) :
    f.Request ext (f.Request ext h) = f.Request ext h := by
  by_cases hv : Header.Get h f.oldHeaderName = ""
  · have h1 : f.Request ext h = h := by simp [headerToHeaderFilter.Request, hv]
    rw [h1, h1]
  · have hg : Header.Get (f.Request ext h) f.oldHeaderName = Header.Get h f.oldHeaderName :=
      Get_congr _ _ _ (Request_other_key ext f h _ hne)
    have hv2 : Header.Get (f.Request ext h) f.oldHeaderName ≠ "" := by rw [hg]; exact hv
    rw [Request_eq_Set ext f (f.Request ext h) hmode hv2, hg,
      Request_eq_Set ext f h hmode hv, Set_Set]

theorem Request_set_idempotent_witness :
    ((headerToHeaderFilter.mk headerToSetHeader "X-Bar-Header" "X-Foo-Header" "<%s>").typ
        = headerToSetHeader
      ∧ CanonicalMIMEHeaderKey "X-Bar-Header" ≠ CanonicalMIMEHeaderKey "X-Foo-Header")
    ∧ headerToHeaderFilter.Request FmtExt.blank
        (headerToHeaderFilter.mk headerToSetHeader "X-Bar-Header" "X-Foo-Header" "<%s>")
        (headerToHeaderFilter.Request FmtExt.blank
          (headerToHeaderFilter.mk headerToSetHeader "X-Bar-Header" "X-Foo-Header" "<%s>")
          scenarioHeaders)
      = headerToHeaderFilter.Request FmtExt.blank
          (headerToHeaderFilter.mk headerToSetHeader "X-Bar-Header" "X-Foo-Header" "<%s>")
          scenarioHeaders :=
  ⟨⟨rfl, by decide⟩,
   Request_set_idempotent FmtExt.blank
     (headerToHeaderFilter.mk headerToSetHeader "X-Bar-Header" "X-Foo-Header" "<%s>")
     scenarioHeaders rfl (by decide)⟩

/-- C16: `Request` reads only the first source value. For every filter whose
canonical source name is not its canonical destination name, two header
collections with the same first source value and the same entries under
every key other than the source give the same destination values after
`Request`; and when the first source value is the empty string `Request`
changes nothing, whatever the later source values are. -/
theorem Request_uses_first_source_value (ext : FmtExt) (f : headerToHeaderFilter)
    (h1 h2 : Header)
    (hne : CanonicalMIMEHeaderKey f.oldHeaderName ≠ CanonicalMIMEHeaderKey f.newHeaderName)
    (hfirst : Header.Get h1 f.oldHeaderName = Header.Get h2 f.oldHeaderName)
    (hrest : ∀ k, k ≠ CanonicalMIMEHeaderKey f.oldHeaderName → h1 k = h2 k) :
    (f.Request ext h1 (CanonicalMIMEHeaderKey f.newHeaderName)
        = f.Request ext h2 (CanonicalMIMEHeaderKey f.newHeaderName)
      ∧ Header.Values (f.Request ext h1) f.newHeaderName
        = Header.Values (f.Request ext h2) f.newHeaderName)
      ∧ ∀ (h : Header) (rest : List String),
          h (CanonicalMIMEHeaderKey f.oldHeaderName) = some ("" :: rest) →
          f.Request ext h = h := by
  have hd : h1 (CanonicalMIMEHeaderKey f.newHeaderName)
      = h2 (CanonicalMIMEHeaderKey f.newHeaderName) := hrest _ (Ne.symm hne)
  have hkey : f.Request ext h1 (CanonicalMIMEHeaderKey f.newHeaderName)
      = f.Request ext h2 (CanonicalMIMEHeaderKey f.newHeaderName) := by
    by_cases hv : Header.Get h2 f.oldHeaderName = ""
    · have hv1 : Header.Get h1 f.oldHeaderName = "" := by rw [hfirst]; exact hv
      simpa [headerToHeaderFilter.Request, hv, hv1] using hd
    · have hv1 : Header.Get h1 f.oldHeaderName ≠ "" := by rw [hfirst]; exact hv
      by_cases ha : f.typ = headerToAddHeader
      · rw [Request_eq_Add ext f h1 ha hv1, Request_eq_Add ext f h2 ha hv, hfirst]
        simp [Header.Add, hd]
      · by_cases hs : f.typ = headerToSetHeader
        · rw [Request_eq_Set ext f h1 hs hv1, Request_eq_Set ext f h2 hs hv, hfirst]
          simp [Header.Set]
        · have e1 : f.Request ext h1 = h1 := by
            simp [headerToHeaderFilter.Request, ha, hs]
          have e2 : f.Request ext h2 = h2 := by
            simp [headerToHeaderFilter.Request, ha, hs]
          rw [e1, e2]; exact hd
  refine ⟨⟨hkey, by simp [Header.Values, hkey]⟩, fun h rest he => ?_⟩
  have hv : Header.Get h f.oldHeaderName = "" := by simp [Header.Get, he]
  simp [headerToHeaderFilter.Request, hv]

theorem Request_uses_first_source_value_witness :
    (CanonicalMIMEHeaderKey "X-Bar-Header" ≠ CanonicalMIMEHeaderKey "X-Foo-Header"
      ∧ Header.Get scenarioHeaders "X-Bar-Header" = Header.Get multiHeaders "X-Bar-Header"
      ∧ (∀ k, k ≠ CanonicalMIMEHeaderKey "X-Bar-Header" → scenarioHeaders k = multiHeaders k)
      ∧ emptyFirstHeaders (CanonicalMIMEHeaderKey "X-Bar-Header") = some ("" :: ["456"]))
    ∧ Header.Values (headerToHeaderFilter.Request FmtExt.blank
          (headerToHeaderFilter.mk headerToAddHeader "X-Bar-Header" "X-Foo-Header" "%s")
          scenarioHeaders) "X-Foo-Header"
        = Header.Values (headerToHeaderFilter.Request FmtExt.blank
            (headerToHeaderFilter.mk headerToAddHeader "X-Bar-Header" "X-Foo-Header" "%s")
            multiHeaders) "X-Foo-Header"
    ∧ headerToHeaderFilter.Request FmtExt.blank
        (headerToHeaderFilter.mk headerToAddHeader "X-Bar-Header" "X-Foo-Header" "%s")
        emptyFirstHeaders = emptyFirstHeaders :=
  have hcanon : CanonicalMIMEHeaderKey "X-Bar-Header" = "X-Bar-Header" := by decide
  have hrest : ∀ k, k ≠ CanonicalMIMEHeaderKey "X-Bar-Header" →
      scenarioHeaders k = multiHeaders k := by
    intro k hk
    rw [hcanon] at hk
    simp [scenarioHeaders, multiHeaders, hk]
  ⟨⟨by decide, by decide, hrest, by decide⟩,
   (Request_uses_first_source_value FmtExt.blank
      (headerToHeaderFilter.mk headerToAddHeader "X-Bar-Header" "X-Foo-Header" "%s")
      scenarioHeaders multiHeaders (by decide) (by decide) hrest).1.2,
   (Request_uses_first_source_value FmtExt.blank
      (headerToHeaderFilter.mk headerToAddHeader "X-Bar-Header" "X-Foo-Header" "%s")
      scenarioHeaders multiHeaders (by decide) (by decide) hrest).2
      emptyFirstHeaders ["456"] (by decide)⟩
